import Mathlib

/-!
A shallow embedding of `pytumblr3.py` in Lean 4, together with theorems
settling the specification's claims about it.

Conventions used throughout:
* Python `dict`s become insertion-ordered association lists (`dictInsert`,
  `dictFind`), with assignment updating an existing key in place.
* Python exceptions become an explicit `PyError` value in an `Except` result.
* A dict key that may be absent becomes an `Option` field; `.get(k, d)`
  becomes `Option.getD`.
* String primitives the source uses (`split`, `strip`, `splitlines`,
  `endswith`, slicing, `int()`) are modelled as executable Lean functions
  over the underlying character lists.
-/

set_option autoImplicit false

deriving instance DecidableEq for Except

namespace Pytumblr3

/-- Python runtime errors raised by the embedded code. The spec's error
vocabulary maps onto these: `FormatError`, `ValidationError` and
`ConfigError` all arise from `assert` statements in the source, hence
`assertionError`; a failed tuple unpacking or `int()` conversion raises
`valueError`; a missing dict key raises `keyError`; reading a local that
was never assigned raises `nameError`. -/
inductive PyError where
  | assertionError
  | valueError
  | keyError
  | nameError
deriving DecidableEq

/-- Python `dict` assignment `d[k] = v` on the association-list model of a
dict: updates the entry in place when the key is present, appends otherwise
(Python dicts preserve insertion order). -/
def dictInsert {κ ν : Type} [DecidableEq κ] : List (κ × ν) → κ → ν → List (κ × ν)
  | [], k, v => [(k, v)]
  | (k', v') :: rest, k, v =>
      if k' = k then (k, v) :: rest else (k', v') :: dictInsert rest k v

/-- Key lookup in the association-list model of a Python `dict`. -/
def dictFind {κ ν : Type} [DecidableEq κ] : List (κ × ν) → κ → Option ν
  | [], _ => none
  | (k', v') :: rest, k => if k' = k then some v' else dictFind rest k

/-- Key membership (`k in d`) in the association-list model of a dict. -/
def dictContains {κ ν : Type} [DecidableEq κ] (d : List (κ × ν)) (k : κ) : Bool :=
  (dictFind d k).isSome

theorem dictFind_insert_self {κ ν : Type} [DecidableEq κ]
    (d : List (κ × ν)) (k : κ) (v : ν) :
    dictFind (dictInsert d k v) k = some v := by
  induction d with
  | nil => simp [dictInsert, dictFind]
  | cons hd tl ih =>
      obtain ⟨k', v'⟩ := hd
      by_cases h : k' = k
      · simp [dictInsert, dictFind, h]
      · simp [dictInsert, dictFind, h, ih]

theorem dictFind_insert_ne {κ ν : Type} [DecidableEq κ]
    (d : List (κ × ν)) (k k' : κ) (v : ν) (h : k' ≠ k) :
    dictFind (dictInsert d k v) k' = dictFind d k' := by
  have h' : k ≠ k' := Ne.symm h
  induction d with
  | nil => simp [dictInsert, dictFind, h']
  | cons hd tl ih =>
      obtain ⟨k₀, v₀⟩ := hd
      by_cases h0 : k₀ = k
      · subst h0
        simp [dictInsert, dictFind, h']
      · simp [dictInsert, dictFind, h0, ih]

theorem dictContains_insert {κ ν : Type} [DecidableEq κ]
    (d : List (κ × ν)) (k k' : κ) (v : ν) :
    dictContains (dictInsert d k v) k' = (k' = k ∨ dictContains d k' = true) := by
  by_cases h : k' = k
  · subst h
    simp [dictContains, dictFind_insert_self]
  · simp [dictContains, dictFind_insert_ne d k k' v h, h]

/-- Splitting a character list on a non-empty separator sequence, scanning
left to right and taking non-overlapping matches greedily: the behaviour
of Python's `str.split(sep)` for non-empty `sep`, on the underlying
characters. The `skip` counter consumes the remaining characters of a
separator occurrence that was already matched, keeping the recursion
structural on the input. -/
def splitSeqGo (sep : List Char) : List Char → Nat → List (List Char)
  | [], _ => [[]]
  | _ :: cs, k + 1 => splitSeqGo sep cs k
  | c :: cs, 0 =>
      if sep.isPrefixOf (c :: cs) then
        [] :: splitSeqGo sep cs (sep.length - 1)
      else
        match splitSeqGo sep cs 0 with
        | [] => [[c]]
        | g :: gs => (c :: g) :: gs

/-- Python `s.split(sep)` for a non-empty separator. -/
def pySplit (sep : String) (s : String) : List String :=
  (splitSeqGo sep.data s.data 0).map fun cs => String.mk cs

theorem splitSeqGo_ne_nil (sep : List Char) (cs : List Char) (k : Nat) :
    splitSeqGo sep cs k ≠ [] := by
  induction cs generalizing k with
  | nil => simp [splitSeqGo]
  | cons c rest ih =>
      match k with
      | k + 1 => exact ih k
      | 0 =>
          unfold splitSeqGo
          by_cases h : sep.isPrefixOf (c :: rest)
          · simp [h]
          · simp only [h, if_false]
            cases hs : splitSeqGo sep rest 0 <;> simp

theorem pySplit_ne_nil (sep s : String) : pySplit sep s ≠ [] := by
  simp [pySplit, splitSeqGo_ne_nil]

/-- The first occurrence of a separator sequence in a character list:
`some (before, after)` when found, `none` otherwise. -/
def breakAtSeq (sep : List Char) : List Char → Option (List Char × List Char)
  | [] => none
  | c :: rest =>
      if sep.isPrefixOf (c :: rest) then
        some ([], rest.drop (sep.length - 1))
      else
        match breakAtSeq sep rest with
        | none => none
        | some (pre, post) => some (c :: pre, post)

/-- Python `s.split(' ', 1)` followed by the two-way unpacking
`url, width = ...`: `none` models the `ValueError` the unpacking raises
when `s` has no space, otherwise the parts before and after the first
space. -/
def splitFirstSpace (s : String) : Option (String × String) :=
  match breakAtSeq [' '] s.data with
  | none => none
  | some (pre, post) => some (String.mk pre, String.mk post)

/-- Python `s.endswith(t)`. -/
def pyEndsWith (s t : String) : Bool :=
  t.data.isSuffixOf s.data

/-- Python `s[:-1]`: every character but the last (the empty string stays
empty). -/
def pyDropLast (s : String) : String :=
  String.mk s.data.dropLast

/-- The number a list of decimal digit characters denotes. -/
def digitsToNat (ds : List Char) : Nat :=
  ds.foldl (fun n c => 10 * n + (c.toNat - 48)) 0

/-- Python `int(s)` on an optionally sign-prefixed decimal string; `none`
models the `ValueError` that `int` raises on anything else. (Python's
`int` also tolerates surrounding whitespace and `_` digit separators; the
source never feeds it those.) -/
def pyInt (s : String) : Option Int :=
  match s.data with
  | [] => none
  | c :: ds =>
      if c = '-' then
        if ds.isEmpty || !ds.all Char.isDigit then none
        else some (-(digitsToNat ds : Int))
      else if c = '+' then
        if ds.isEmpty || !ds.all Char.isDigit then none
        else some ((digitsToNat ds : Int))
      else
        if !(c :: ds).all Char.isDigit then none
        else some ((digitsToNat (c :: ds) : Int))

theorem pyInt_cons (c : Char) (ds : List Char) :
    pyInt (String.mk (c :: ds)) =
      if c = '-' then
        (if ds.isEmpty || !ds.all Char.isDigit then none
         else some (-(digitsToNat ds : Int)))
      else if c = '+' then
        (if ds.isEmpty || !ds.all Char.isDigit then none
         else some ((digitsToNat ds : Int)))
      else
        (if !(c :: ds).all Char.isDigit then none
         else some ((digitsToNat (c :: ds) : Int))) := rfl

theorem pyInt_digits (ds : List Char) (hne : ds ≠ [])
    (hdig : ds.all Char.isDigit = true) :
    pyInt (String.mk ds) = some ((digitsToNat ds : Int)) := by
  match ds with
  | [] => exact absurd rfl hne
  | c :: rest =>
      have hc : c.isDigit = true := by
        simp only [List.all_cons, Bool.and_eq_true] at hdig
        exact hdig.1
      have hcm : c ≠ '-' ∧ c ≠ '+' := by
        constructor <;> rintro rfl <;> exact absurd hc (by decide)
      rw [pyInt_cons]
      simp [hcm.1, hcm.2, hdig]

/-- Keys of the mapping `get_srcset` builds: the parsed integer widths plus
the string key `"max"` (Python dicts mix key types freely). -/
inductive SrcKey where
  | width (n : Int)
  | max
deriving DecidableEq

/-- One iteration of the loop in `get_srcset`:
`url, width = src.split(' ', 1)` (raising `ValueError` when there is no
space), `assert width.endswith('w')` (raising `AssertionError`, the spec's
FormatError, otherwise), then `width = int(width[:-1])` (raising
`ValueError` on a non-numeric prefix). Returns the URL and the width. -/
def parseTok (src : String) : Except PyError (String × Int) :=
  match splitFirstSpace src with
  | none => .error .valueError
  | some (url, width) =>
      if pyEndsWith width "w" then
        match pyInt (pyDropLast width) with
        | some n => .ok (url, n)
        | none => .error .valueError
      else .error .assertionError

/-- The `for src in srcset_raw.split(', ')` loop of `get_srcset`, carrying
the dict built so far and the last value the loop variable `url` took
(`none` while `url` is still unassigned). -/
def srcsetLoop : List String → List (SrcKey × String) → Option String →
    Except PyError (List (SrcKey × String) × Option String)
  | [], d, lastUrl => .ok (d, lastUrl)
  | src :: rest, d, _ =>
      match parseTok src with
      | .error e => .error e
      | .ok (url, n) => srcsetLoop rest (dictInsert d (.width n) url) (some url)

/-- `get_srcset` from `pytumblr3.py`: empty input returns the empty dict;
otherwise each `", "`-separated token contributes `srcset[width] = url`,
and afterwards `srcset['max'] = url` stores the last token's URL. Reading
`url` when the loop body never ran would raise `NameError` (unreachable,
since splitting a non-empty string yields at least one token). -/
def get_srcset (srcset_raw : String) : Except PyError (List (SrcKey × String)) :=
  if srcset_raw = "" then .ok []
  else
    match srcsetLoop (pySplit ", " srcset_raw) [] none with
    | .error e => .error e
    | .ok (d, some url) => .ok (dictInsert d .max url)
    | .ok (_, none) => .error .nameError

/-- A well-formed `"<url> <width>w"` token: it has a space, and the part
after the first space is a non-empty decimal digit string followed by the
suffix `w`. -/
def wfTok (t : String) : Bool :=
  match splitFirstSpace t with
  | none => false
  | some (_, w) =>
      pyEndsWith w "w" && !(pyDropLast w).data.isEmpty &&
        (pyDropLast w).data.all Char.isDigit

/-- The width `parseTok` extracts from a token (`0` when parsing fails). -/
def tokWidth (t : String) : Int :=
  match parseTok t with
  | .ok (_, n) => n
  | .error _ => 0

/-- The URL `parseTok` extracts from a token (`""` when parsing fails). -/
def tokUrl (t : String) : String :=
  match parseTok t with
  | .ok (url, _) => url
  | .error _ => ""

theorem parseTok_of_wfTok (t : String) (h : wfTok t = true) :
    parseTok t = .ok (tokUrl t, tokWidth t) ∧ 0 ≤ tokWidth t := by
  unfold wfTok at h
  split at h
  · exact absurd h (by simp)
  · rename_i url w heq
    simp only [Bool.and_eq_true] at h
    obtain ⟨⟨hw, hne⟩, hdig⟩ := h
    have hne' : (pyDropLast w).data ≠ [] := by
      simpa using hne
    have hint : pyInt (pyDropLast w) = some ((digitsToNat (pyDropLast w).data : Int)) := by
      have := pyInt_digits (pyDropLast w).data hne' hdig
      simpa using this
    have hok : parseTok t = .ok (url, (digitsToNat (pyDropLast w).data : Int)) := by
      unfold parseTok
      rw [heq]
      simp [hw, hint]
    refine ⟨?_, ?_⟩
    · rw [hok]
      simp [tokUrl, tokWidth, hok]
    · simp [tokWidth, hok]

theorem getLast?_cons_or {α : Type} (a : α) (l : List α) :
    (a :: l).getLast? = l.getLast?.or (some a) := by
  induction l generalizing a with
  | nil => simp
  | cons b m ih =>
      rw [List.getLast?_cons_cons, ih b]
      cases hm : m.getLast? with
      | none => simp [Option.or]
      | some x => simp [Option.or]

theorem srcsetLoop_wf (toks : List String) :
    ∀ (d : List (SrcKey × String)) (last : Option String),
      (∀ t ∈ toks, wfTok t = true) →
      ∃ d', srcsetLoop toks d last = .ok (d', (toks.getLast?.map tokUrl).or last) ∧
        ∀ k, dictContains d' k = true ↔
          (dictContains d k = true ∨ ∃ x ∈ toks, k = SrcKey.width (tokWidth x)) := by
  induction toks with
  | nil =>
      intro d last _
      exact ⟨d, by simp [srcsetLoop], by simp⟩
  | cons t ts ih =>
      intro d last hwf
      have hT := parseTok_of_wfTok t (hwf t (by simp))
      obtain ⟨d', hloop, hmem⟩ :=
        ih (dictInsert d (SrcKey.width (tokWidth t)) (tokUrl t)) (some (tokUrl t))
          (fun x hx => hwf x (by simp [hx]))
      refine ⟨d', ?_, ?_⟩
      · simp only [srcsetLoop, hT.1]
        rw [hloop, getLast?_cons_or]
        cases hts : ts.getLast? with
        | none => simp [Option.or]
        | some x => simp [Option.or]
      · intro k
        rw [hmem k, dictContains_insert]
        simp only [List.mem_cons]
        constructor
        · rintro (⟨h | h⟩ | ⟨x, hx, hk⟩)
          · exact Or.inr ⟨t, Or.inl rfl, h⟩
          · exact Or.inl h
          · exact Or.inr ⟨x, Or.inr hx, hk⟩
        · rintro (h | ⟨x, hx | hx, hk⟩)
          · exact Or.inl (Or.inr h)
          · exact Or.inl (Or.inl (hx ▸ hk))
          · exact Or.inr ⟨x, hx, hk⟩

/-- C4: for every srcset string whose tokens are all well-formed
`"<url> <width>w"` entries, `get_srcset` succeeds; the non-`"max"` keys of
the resulting dict are exactly the parsed widths, each width is a
non-negative integer, the `"max"` key holds the URL of the last token, and
the `"max"` key is always present; the empty string yields the empty
dict. -/
theorem claim_C4 (s : String) (hne : s ≠ "")
    (hwf : ∀ t ∈ pySplit ", " s, wfTok t = true) :
    (∃ d, get_srcset s = .ok d ∧
      (∀ n : Int, dictContains d (SrcKey.width n) = true ↔
        ∃ t ∈ pySplit ", " s, n = tokWidth t) ∧
      (∀ n : Int, dictContains d (SrcKey.width n) = true → 0 ≤ n) ∧
      (∀ tl, (pySplit ", " s).getLast? = some tl →
        dictFind d SrcKey.max = some (tokUrl tl)) ∧
      dictContains d SrcKey.max = true) ∧
    get_srcset "" = .ok [] := by
  refine ⟨?_, by decide⟩
  obtain ⟨tl, htl⟩ : ∃ tl, (pySplit ", " s).getLast? = some tl := by
    have h := pySplit_ne_nil ", " s
    cases hx : (pySplit ", " s).getLast? with
    | none => exact absurd (List.getLast?_eq_none_iff.mp hx) h
    | some x => exact ⟨x, rfl⟩
  obtain ⟨d₀, hloop, hmem⟩ := srcsetLoop_wf (pySplit ", " s) [] none hwf
  rw [htl] at hloop
  refine ⟨dictInsert d₀ SrcKey.max (tokUrl tl), ?_, ?_, ?_, ?_, ?_⟩
  · simp only [get_srcset, hne, if_false, hloop, Option.map_some', Option.or]
  · intro n
    rw [dictContains_insert]
    have h0 : ¬ (SrcKey.width n = SrcKey.max) := by simp
    rw [hmem (SrcKey.width n)]
    simp [h0, dictContains, dictFind]
  · intro n hn
    rw [dictContains_insert] at hn
    rcases hn with h | h
    · exact absurd h (by simp)
    · rw [hmem (SrcKey.width n)] at h
      rcases h with h | ⟨x, hx, hk⟩
      · simp [dictContains, dictFind] at h
      · have := (parseTok_of_wfTok x (hwf x hx)).2
        simp only [SrcKey.width.injEq] at hk
        omega
  · intro tl' htl'
    rw [htl] at htl'
    cases htl'
    exact dictFind_insert_self d₀ SrcKey.max (tokUrl tl)
  · simp [dictContains, dictFind_insert_self]

/-- C4 witness: a concrete two-token srcset, with the hypotheses of
`claim_C4` discharged by computation. -/
theorem claim_C4_witness :
    ("a 100w, b 200w" : String) ≠ "" ∧
    (∃ d, get_srcset "a 100w, b 200w" = .ok d ∧
      dictContains d (SrcKey.width 100) = true ∧
      dictContains d (SrcKey.width 200) = true ∧
      dictFind d SrcKey.max = some "b") := by
  obtain ⟨⟨d, hd, hw, _, hmax, _⟩, -⟩ :=
    claim_C4 "a 100w, b 200w" (by decide) (by decide)
  refine ⟨by decide, d, hd, ?_, ?_, hmax "b 200w" (by decide)⟩
  · exact (hw 100).mpr ⟨"a 100w", by decide, by decide⟩
  · exact (hw 200).mpr ⟨"b 200w", by decide, by decide⟩

theorem parseTok_badSuffix (t u w : String)
    (hsplit : splitFirstSpace t = some (u, w))
    (hw : pyEndsWith w "w" = false) :
    parseTok t = .error .assertionError := by
  unfold parseTok
  rw [hsplit]
  simp [hw]

theorem srcsetLoop_stops_at_error (pre : List String) (t : String)
    (post : List String) (e : PyError)
    (hpre : ∀ t' ∈ pre, ∃ r, parseTok t' = .ok r)
    (ht : parseTok t = .error e) :
    ∀ (d : List (SrcKey × String)) (last : Option String),
      srcsetLoop (pre ++ t :: post) d last = .error e := by
  induction pre with
  | nil =>
      intro d last
      simp only [List.nil_append, srcsetLoop, ht]
  | cons p ps ih =>
      intro d last
      obtain ⟨⟨url, n⟩, hp⟩ := hpre p (by simp)
      simp only [List.cons_append, srcsetLoop, hp]
      exact ih (fun x hx => hpre x (by simp [hx])) _ _

/-- C7 (amended): for a non-empty srcset string, if the token list has a
token whose part after the first space does not end in `w`, and every
token before it parses cleanly, `get_srcset` fails with the
`AssertionError` the spec calls FormatError, producing no mapping. -/
theorem claim_C7_amended (s : String) (pre : List String) (t : String)
    (post : List String) (u w : String) (hne : s ≠ "")
    (hs : pySplit ", " s = pre ++ t :: post)
    (hpre : ∀ t' ∈ pre, ∃ r, parseTok t' = .ok r)
    (hsplit : splitFirstSpace t = some (u, w))
    (hw : pyEndsWith w "w" = false) :
    get_srcset s = .error .assertionError := by
  have ht := parseTok_badSuffix t u w hsplit hw
  have hloop := srcsetLoop_stops_at_error pre t post .assertionError hpre ht
  simp only [get_srcset, hne, if_false, hs, hloop]

/-- C7 witness: the spec's own example `"https://x/a.jpg 100"` (missing `w`
suffix) makes `get_srcset` fail with the FormatError assertion. -/
theorem claim_C7_witness :
    get_srcset "https://x/a.jpg 100" = .error .assertionError :=
  claim_C7_amended "https://x/a.jpg 100" [] "https://x/a.jpg 100" []
    "https://x/a.jpg" "100" (by decide) (by decide) (by simp) (by decide)
    (by decide)

/-- C7 counterexample: `"nospace, url 100"` is non-empty and contains the
token `"url 100"`, whose part after the first space does not end in `w`;
yet `get_srcset` fails with `ValueError` (the first token has no space, so
its unpacking fails first), not with the FormatError assertion. -/
theorem claim_C7_counterexample :
    ("nospace, url 100" : String) ≠ "" ∧
    "url 100" ∈ pySplit ", " "nospace, url 100" ∧
    splitFirstSpace "url 100" = some ("url", "100") ∧
    pyEndsWith "100" "w" = false ∧
    get_srcset "nospace, url 100" ≠ .error .assertionError ∧
    get_srcset "nospace, url 100" = .error .valueError := by
  decide

/-- Python `s.strip()`: removes leading and trailing whitespace characters
(the key files hold ASCII text, so the ASCII whitespace predicate
suffices). -/
def pyStrip (s : String) : String :=
  String.mk (((s.data.dropWhile Char.isWhitespace).reverse.dropWhile
    Char.isWhitespace).reverse)

/-- Python `s.splitlines()` on newline-separated text: splits at `\n`, does
not produce an entry for a trailing newline, and returns `[]` on the empty
string. -/
def pySplitlines (s : String) : List String :=
  if s.data.isEmpty then []
  else
    let parts := (splitSeqGo ['\n'] s.data 0).map fun cs => String.mk cs
    if s.data.getLast? = some '\n' then parts.dropLast else parts

/-- The client constructed by `Client.from_keys`: the four credential values,
in the order the key file lists them. -/
structure Client where
  consumer_key : String
  consumer_secret : String
  token : String
  token_secret : String
deriving DecidableEq

/-- `Client.from_keys`, with the file read abstracted away: `content` is the
text `Path(path).read_text()` returns. The source strips the content,
splits it into lines, asserts there are exactly four (the spec's
ConfigError), and passes them positionally to the constructor. -/
def from_keys (content : String) : Except PyError Client :=
  match pySplitlines (pyStrip content) with
  | [a, b, c, d] => .ok ⟨a, b, c, d⟩
  | _ => .error .assertionError

/-- The file content consists of exactly four non-empty lines. -/
def fourNonEmptyLines (content : String) : Prop :=
  (pySplitlines content).length = 4 ∧ ∀ l ∈ pySplitlines content, l ≠ ""

instance (content : String) : Decidable (fourNonEmptyLines content) := by
  unfold fourNonEmptyLines
  infer_instance

/-- C8 counterexample: the file content `"a\n\nb\nc"` does not consist of
four non-empty lines (its second line is empty), yet `from_keys` does not
fail: stripping and splitting yields four entries, so the assertion
passes and a client is built with an empty `consumer_secret`. -/
theorem claim_C8_counterexample :
    ¬ fourNonEmptyLines "a\n\nb\nc" ∧
    from_keys "a\n\nb\nc" = .ok ⟨"a", "", "b", "c"⟩ ∧
    from_keys "a\n\nb\nc" ≠ .error .assertionError := by
  decide

/-- C8 (amended): `from_keys` fails with the ConfigError assertion exactly
when the stripped file content does not split into four lines; when the
stripped content's lines are `[a, b, c, d]` it returns the client carrying
those four values in order (consumer key, consumer secret, token, token
secret). In particular a three-line file fails. -/
theorem claim_C8_amended (content : String) :
    ((pySplitlines (pyStrip content)).length ≠ 4 →
      from_keys content = .error .assertionError) ∧
    (∀ a b c d, pySplitlines (pyStrip content) = [a, b, c, d] →
      from_keys content = .ok ⟨a, b, c, d⟩) := by
  constructor
  · intro hlen
    unfold from_keys
    split
    · rename_i heq
      rw [heq] at hlen
      simp at hlen
    · rfl
  · intro a b c d heq
    unfold from_keys
    rw [heq]

/-- C8 witness: a four-line key file builds the client with the four values
in order; a three-line file fails with the ConfigError assertion. -/
theorem claim_C8_witness :
    from_keys "ck\ncs\ntok\nts\n" = .ok ⟨"ck", "cs", "tok", "ts"⟩ ∧
    from_keys "ck\ncs\ntok" = .error .assertionError :=
  ⟨(claim_C8_amended "ck\ncs\ntok\nts\n").2 "ck" "cs" "tok" "ts" (by decide),
   (claim_C8_amended "ck\ncs\ntok").1 (by decide)⟩

/-- Python values that appear as dict keys or values in the requests the
embedded code builds: strings, integers, and the `{'id': ...}` mapping a
trail entry holds under its `post` key. -/
inductive PyVal where
  | str (s : String)
  | int (n : Int)
  | postDict (id : String)
deriving DecidableEq

/-- A request handed to `send_api_request`: the HTTP method string, the URL
path, and the params dict. -/
structure ApiRequest where
  httpMethod : String
  url : String
  params : List (PyVal × PyVal)
deriving DecidableEq

/-- `Client.queue_reorder` from the source: sends a GET request to
`/v2/blog/{blogname}/posts/queue/reorder` whose params are the dict
literal `{post_id: post_id, insert_after: insert_after}` — note that the
literal uses the *values* of the two variables as the keys. -/
def queue_reorder (blogname : String) (post_id : Int) (insert_after : Int) :
    ApiRequest :=
  { httpMethod := "get"
  , url := "/v2/blog/" ++ blogname ++ "/posts/queue/reorder"
  , params :=
      dictInsert (dictInsert [] (PyVal.int post_id) (PyVal.int post_id))
        (PyVal.int insert_after) (PyVal.int insert_after) }

/-- Modelled from the spec (for comparison with the source): the reorder
request with a body keyed by the parameter names `"post_id"` and
`"insert_after"`, as the claim describes. -/
def queue_reorder_claimed (blogname : String) (post_id : Int)
    (insert_after : Int) : ApiRequest :=
  { httpMethod := "get"
  , url := "/v2/blog/" ++ blogname ++ "/posts/queue/reorder"
  , params :=
      [(PyVal.str "post_id", PyVal.int post_id),
       (PyVal.str "insert_after", PyVal.int insert_after)] }

/-- C3 divergence: at `blogname = "b.tumblr.com"`, `post_id = 123`,
`insert_after = 0`, the source sends the body `{123: 123, 0: 0}` — the
keys `"post_id"` and `"insert_after"` are absent — instead of the claimed
`{"post_id": 123, "insert_after": 0}`. Method and URL do match the
claim. -/
theorem claim_C3_divergence :
    (queue_reorder "b.tumblr.com" 123 0).params =
      [(PyVal.int 123, PyVal.int 123), (PyVal.int 0, PyVal.int 0)] ∧
    dictFind (queue_reorder "b.tumblr.com" 123 0).params
      (PyVal.str "post_id") = none ∧
    dictFind (queue_reorder "b.tumblr.com" 123 0).params
      (PyVal.str "insert_after") = none ∧
    queue_reorder "b.tumblr.com" 123 0 ≠ queue_reorder_claimed "b.tumblr.com" 123 0 ∧
    (queue_reorder "b.tumblr.com" 123 0).httpMethod = "get" ∧
    (queue_reorder "b.tumblr.com" 123 0).url =
      "/v2/blog/b.tumblr.com/posts/queue/reorder" := by
  refine ⟨rfl, rfl, rfl, ?_, rfl, rfl⟩
  decide

/-- The `blog` record of a trail entry; only `name` is read. -/
structure Blog where
  name : String
deriving DecidableEq

/-- The `post` record of a trail entry: `{'id': ...}`. -/
structure TrailPostRef where
  id : String
deriving DecidableEq

/-- One `{width, url}` entry of an image block's `media` list. -/
structure MediaEntry where
  width : Int
  url : String
deriving DecidableEq

/-- A content block: its `type` tag and its `media` list (blocks whose type
is not `image` never have their `media` read, so an empty list stands for
an absent key there). -/
structure ContentBlock where
  type : String
  media : List MediaEntry
deriving DecidableEq

/-- One entry of a post's `trail`. `is_root_item` is optional:
`none` models the key being absent, which `.get('is_root_item', True)`
defaults to `True`. -/
structure TrailEntry where
  blog : Blog
  post : TrailPostRef
  is_root_item : Option Bool
  content : List ContentBlock
deriving DecidableEq

/-- The fields of a post the embedded methods read. `trail = none` models a
post dict with no `'trail'` key at all, as distinct from
`trail = some []`, an empty trail. -/
structure Post where
  id : Int
  content : List ContentBlock
  trail : Option (List TrailEntry)
deriving DecidableEq

/-- The dict comprehension building one width→URL mapping from a block's
`media` list. -/
def mediaDict (media : List MediaEntry) : List (Int × String) :=
  media.foldl (fun d t => dictInsert d t.width t.url) []

/-- `Post.get_images` from the source: iterates over `[self] + self['trail']`
(the trail only when the `'trail'` key is present), skips blocks whose
type is not `image`, and yields one `{t['width']: t['url']}` dict per
image block. -/
def get_images (self : Post) : List (List (Int × String)) :=
  let posts : List (List ContentBlock) :=
    [self.content] ++
      (match self.trail with
       | some trail => trail.map TrailEntry.content
       | none => [])
  posts.flatMap fun content =>
    content.flatMap fun block =>
      if block.type ≠ "image" then []
      else [mediaDict block.media]

/-- The raw JSON result of a `posts(blog_id, id=...)` lookup: `none` models
a response with no `'posts'` key, which `.get('posts', [])` defaults to
the empty list. -/
structure PostsResponse where
  posts : Option (List Post)
deriving DecidableEq

/-- `Client.get_root_post` from the source. The injected client's `posts`
method is abstracted as `lookup`, receiving the blog name and the raw
Python value the source passes as `id=`; alongside the returned post the
embedding records the list of lookup calls issued. `post['trail']` raises
`KeyError` when the key is absent; an empty trail is falsy, so the walrus
guard skips the lookup and `root or post` returns the input post. The
`assert root_ref.get('is_root_item', True)` raises the `AssertionError`
the spec calls ValidationError. Looked-up posts are records, hence never
falsy, so `root or post` returns the first looked-up post whenever the
lookup result is non-empty. -/
def get_root_post (lookup : String → PyVal → PostsResponse) (post : Post) :
    Except PyError (Post × List (String × PyVal)) :=
  match post.trail with
  | none => .error .keyError
  | some [] => .ok (post, [])
  | some (root_ref :: _) =>
      if root_ref.is_root_item.getD true then
        let blog_id := root_ref.blog.name
        let post_id := PyVal.postDict root_ref.post.id
        match (lookup blog_id post_id).posts.getD [] with
        | p :: _ => .ok (p, [(blog_id, post_id)])
        | [] => .ok (post, [(blog_id, post_id)])
      else .error .assertionError

theorem flatMap_image_eq_filterMap (cs : List ContentBlock) :
    (cs.flatMap fun block =>
      if block.type = "image" then [mediaDict block.media] else []) =
      cs.filterMap fun block =>
        if block.type = "image" then some (mediaDict block.media) else none := by
  induction cs with
  | nil => rfl
  | cons b bs ih => by_cases h : b.type = "image" <;> simp [h, ih]

theorem filterMap_flatMap_content {β : Type} (es : List TrailEntry)
    (g : ContentBlock → Option β) :
    ((es.map TrailEntry.content).flatMap fun c => c.filterMap g) =
      (es.flatMap TrailEntry.content).filterMap g := by
  induction es with
  | nil => rfl
  | cons e es ih => simp [ih]

/-- C9: `get_images` yields exactly one width→URL dict per `image` block —
built directly from the block's `media` list — first for the blocks of the
post's own content and then for each trail entry's content in trail
order, silently skipping every block with another tag. -/
theorem claim_C9 (post : Post) :
    get_images post =
      (post.content ++ (post.trail.getD []).flatMap TrailEntry.content).filterMap
        fun block =>
          if block.type = "image" then some (mediaDict block.media) else none := by
  cases htr : post.trail with
  | none =>
      simp [get_images, htr, flatMap_image_eq_filterMap]
  | some trail =>
      simp [get_images, htr, List.filterMap_append,
        flatMap_image_eq_filterMap, filterMap_flatMap_content]

/-- A lookup collaborator whose response holds no posts. -/
def emptyLookup : String → PyVal → PostsResponse := fun _ _ => ⟨some []⟩

/-- A post whose trail names the root post `12345` on blog `origblog`. -/
def c2post : Post :=
  ⟨1, [], some [⟨⟨"origblog"⟩, ⟨"12345"⟩, none, []⟩]⟩

/-- C2 divergence: resolving `c2post` issues exactly one lookup, whose
`id=` argument is the trail entry's whole `post` mapping `{'id': '12345'}`
— not the post's id string `"12345"` that the claim (and the `posts`
method's own documentation) call for. -/
theorem claim_C2_divergence :
    get_root_post emptyLookup c2post =
      .ok (c2post, [("origblog", PyVal.postDict "12345")]) ∧
    PyVal.postDict "12345" ≠ PyVal.str "12345" ∧
    PyVal.postDict "12345" ≠ PyVal.int 12345 :=
  ⟨rfl, by decide, by decide⟩

/-- C5: `get_root_post` returns the input post exactly when the trail is
present but empty, or when the trail's first entry is not explicitly
marked non-root and its lookup returns zero posts (the soft fallback).
The freshness hypothesis rules out the degenerate case of the lookup
returning a post equal to the input. -/
theorem claim_C5 (lookup : String → PyVal → PostsResponse) (post : Post)
    (trail : List TrailEntry) (htr : post.trail = some trail)
    (hfresh : ∀ r rest, trail = r :: rest →
      ∀ p ∈ (lookup r.blog.name (PyVal.postDict r.post.id)).posts.getD [],
        p ≠ post) :
    (∃ calls, get_root_post lookup post = .ok (post, calls)) ↔
      (trail = [] ∨
        ∃ r rest, trail = r :: rest ∧ r.is_root_item ≠ some false ∧
          (lookup r.blog.name (PyVal.postDict r.post.id)).posts.getD [] = []) := by
  cases trail with
  | nil =>
      constructor
      · intro _
        exact Or.inl rfl
      · intro _
        exact ⟨[], by simp [get_root_post, htr]⟩
  | cons r rest =>
      by_cases hroot : r.is_root_item.getD true = true
      · have hnf : r.is_root_item ≠ some false := by
          intro hc
          rw [hc] at hroot
          simp at hroot
        cases hlist : (lookup r.blog.name (PyVal.postDict r.post.id)).posts.getD [] with
        | nil =>
            constructor
            · intro _
              exact Or.inr ⟨r, rest, rfl, hnf, hlist⟩
            · intro _
              refine ⟨[(r.blog.name, PyVal.postDict r.post.id)], ?_⟩
              simp [get_root_post, htr, hroot, hlist]
        | cons p ps =>
            have hne : p ≠ post := hfresh r rest rfl p (by simp [hlist])
            constructor
            · rintro ⟨calls, hcalls⟩
              simp only [get_root_post, htr, hroot, if_true, hlist,
                Except.ok.injEq, Prod.mk.injEq] at hcalls
              exact absurd hcalls.1 hne
            · rintro (h | ⟨r', rest', hrr, -, hlist'⟩)
              · exact absurd h (by simp)
              · obtain ⟨rfl, rfl⟩ : r' = r ∧ rest' = rest := by
                  have := List.cons_eq_cons.mp hrr.symm
                  exact ⟨this.1, this.2⟩
                rw [hlist'] at hlist
                exact absurd hlist (by simp)
      · have hsf : r.is_root_item = some false := by
          rcases hb : r.is_root_item with _ | b
          · rw [hb] at hroot
            simp at hroot
          · cases b
            · rfl
            · rw [hb] at hroot
              simp at hroot
        constructor
        · rintro ⟨calls, hcalls⟩
          simp [get_root_post, htr, hsf] at hcalls
        · rintro (h | ⟨r', rest', hrr, hnf, -⟩)
          · exact absurd h (by simp)
          · have : r' = r := (List.cons_eq_cons.mp hrr.symm).1
            exact absurd (this ▸ hsf) hnf

/-- A post carrying a present but empty trail. -/
def c5post : Post := ⟨7, [], some []⟩

/-- C5 witness: on an empty-trail post, `get_root_post` returns the post
unchanged, as the left-to-right reading of the claim's first situation. -/
theorem claim_C5_witness :
    c5post.trail = some [] ∧
    (∃ calls, get_root_post emptyLookup c5post = .ok (c5post, calls)) :=
  ⟨rfl,
    (claim_C5 emptyLookup c5post [] rfl
      (fun _ _ h => absurd h (by simp))).mpr (Or.inl rfl)⟩

/-- C6: on a post with a non-empty trail, `get_root_post` raises the
`AssertionError` the spec calls ValidationError if and only if the first
trail entry explicitly carries `is_root_item = false`; an absent (or
`true`) flag lets resolution proceed. -/
theorem claim_C6 (lookup : String → PyVal → PostsResponse) (post : Post)
    (r : TrailEntry) (rest : List TrailEntry)
    (htr : post.trail = some (r :: rest)) :
    get_root_post lookup post = .error .assertionError ↔
      r.is_root_item = some false := by
  by_cases hroot : r.is_root_item.getD true = true
  · have hnf : r.is_root_item ≠ some false := by
      intro hc
      rw [hc] at hroot
      simp at hroot
    simp only [get_root_post, htr, hroot, if_true]
    cases (lookup r.blog.name (PyVal.postDict r.post.id)).posts.getD [] with
    | nil => simp [hnf]
    | cons p ps => simp [hnf]
  · have hsf : r.is_root_item = some false := by
      rcases hb : r.is_root_item with _ | b
      · rw [hb] at hroot
        simp at hroot
      · cases b
        · rfl
        · rw [hb] at hroot
          simp at hroot
    simp [get_root_post, htr, hsf]

/-- A post whose trail's first entry is explicitly marked non-root. -/
def c6post : Post := ⟨3, [], some [⟨⟨"b"⟩, ⟨"id1"⟩, some false, []⟩]⟩

/-- C6 witness: the explicitly non-root first trail entry makes
`get_root_post` fail with the ValidationError assertion. -/
theorem claim_C6_witness :
    get_root_post emptyLookup c6post = .error .assertionError :=
  (claim_C6 emptyLookup c6post ⟨⟨"b"⟩, ⟨"id1"⟩, some false, []⟩ [] rfl).mpr rfl

/-- C10: on a post dict with no `'trail'` key at all, `get_root_post`
raises `KeyError` (it subscripts `post['trail']` unguarded), while
`get_images` — which tests `'trail' in self` first — behaves exactly as on
an empty trail. -/
theorem claim_C10 (lookup : String → PyVal → PostsResponse) (post : Post)
    (h : post.trail = none) :
    get_root_post lookup post = .error .keyError ∧
    get_images post = get_images { post with trail := some [] } := by
  constructor
  · simp [get_root_post, h]
  · simp [get_images, h]

/-- A post with an image block and no `'trail'` key. -/
def c10post : Post := ⟨9, [⟨"image", [⟨100, "u"⟩]⟩], none⟩

/-- C10 witness: the trail-less post makes `get_root_post` raise `KeyError`
while `get_images` still yields its own image block's mapping. -/
theorem claim_C10_witness :
    get_root_post emptyLookup c10post = .error .keyError ∧
    get_images c10post = get_images { c10post with trail := some [] } :=
  claim_C10 emptyLookup c10post rfl

/-- The `Post(post)` wrapper `get_posts` applies to each raw item of a page
before yielding it; `J` is the type of the raw decoded JSON items. -/
structure PostRecord (J : Type) where
  data : J
deriving DecidableEq

/-- The keys of the `_get_methods` dispatch dict in `get_posts`. -/
inductive FetchMethod where
  | posts
  | queue
  | likes
deriving DecidableEq

/-- The three underlying endpoint methods of the client, abstracted: each
takes the blogname (except `likes`, whose lambda passes none), the `limit`
and `offset` query values and the remaining kwargs `K`, and returns the
post list found under the key the generator reads (`'posts'` for the
posts/queue endpoints, `'liked_posts'` for likes) — `none` when that key
is absent from the raw response. -/
structure ApiClient (J K : Type) where
  posts : String → Nat → Nat → K → Option (List J)
  queue : String → Nat → Nat → K → Option (List J)
  likes : Nat → Nat → K → Option (List J)

/-- The lambda `_get_methods[method]` selects: calls the endpoint with
`limit`, `offset` and the extra kwargs, and applies `.get(key, [])`, so an
absent post list becomes the empty page. -/
def pageFor {J K : Type} (c : ApiClient J K) (blogname : String)
    (m : FetchMethod) (limit offset : Nat) (kw : K) : List J :=
  match m with
  | .posts => (c.posts blogname limit offset kw).getD []
  | .queue => (c.queue blogname limit offset kw).getD []
  | .likes => (c.likes limit offset kw).getD []

/-- The `while r := method(limit=50, offset=offset, **kwargs)` loop of
`get_posts`, with `fuel` bounding the number of page requests: `none`
means the loop was still running when the fuel ran out. Returns the
`(limit, offset)` pairs requested, in order, and the records yielded: each
non-empty page's items in order, wrapped by `Post(...)`, after which
`offset += 50`; an empty (falsy) page ends the loop. -/
def get_posts_loop {J K : Type} (c : ApiClient J K) (blogname : String)
    (m : FetchMethod) (kw : K) :
    Nat → Nat → Option (List (Nat × Nat) × List (PostRecord J))
  | 0, _ => none
  | fuel + 1, offset =>
      let r := pageFor c blogname m 50 offset kw
      if r.isEmpty then some ([(50, offset)], [])
      else
        match get_posts_loop c blogname m kw fuel (offset + 50) with
        | none => none
        | some (reqs, out) =>
            some ((50, offset) :: reqs, r.map PostRecord.mk ++ out)

/-- `Client.get_posts`, run for at most `fuel` page requests, starting from
`offset = 0`. -/
def get_posts {J K : Type} (c : ApiClient J K) (blogname : String)
    (m : FetchMethod) (kw : K) (fuel : Nat) :
    Option (List (Nat × Nat) × List (PostRecord J)) :=
  get_posts_loop c blogname m kw fuel 0

theorem range_succ_map_shift {α : Type} (n : Nat) (f : Nat → α) :
    (List.range (n + 1)).map f = f 0 :: (List.range n).map fun k => f (k + 1) := by
  rw [List.range_succ_eq_map, List.map_cons, List.map_map]
  rfl

theorem get_posts_loop_spec {J K : Type} (c : ApiClient J K) (blogname : String)
    (m : FetchMethod) (kw : K) :
    ∀ (N i : Nat),
      (∀ k, i ≤ k → k < i + N → pageFor c blogname m 50 (50 * k) kw ≠ []) →
      pageFor c blogname m 50 (50 * (i + N)) kw = [] →
      get_posts_loop c blogname m kw (N + 1) (50 * i) =
        some ((List.range (N + 1)).map fun k => (50, 50 * (i + k)),
          ((List.range N).map fun k =>
            (pageFor c blogname m 50 (50 * (i + k)) kw).map PostRecord.mk).flatten) := by
  intro N
  induction N with
  | zero =>
      intro i _ hend
      simp only [Nat.add_zero] at hend
      unfold get_posts_loop
      simp [hend, List.range_succ]
  | succ N ihN =>
      intro i hbefore hend
      have hne : pageFor c blogname m 50 (50 * i) kw ≠ [] :=
        hbefore i (Nat.le_refl i) (by omega)
      have hne' : ¬ (pageFor c blogname m 50 (50 * i) kw).isEmpty = true := by
        simpa [List.isEmpty_iff] using hne
      have hrec := ihN (i + 1)
        (fun k hk1 hk2 => hbefore k (by omega) (by omega))
        (by
          have harith : i + 1 + N = i + (N + 1) := by omega
          rw [harith]
          exact hend)
      unfold get_posts_loop
      simp only [if_neg hne']
      have hoff : 50 * i + 50 = 50 * (i + 1) := by ring
      rw [hoff, hrec]
      have hreq : ((List.range (N + 1 + 1)).map fun k => ((50, 50 * (i + k)) : Nat × Nat)) =
          (50, 50 * i) :: (List.range (N + 1)).map fun k => (50, 50 * (i + 1 + k)) := by
        rw [range_succ_map_shift]
        have hfun : (fun k => ((50, 50 * (i + (k + 1))) : Nat × Nat)) =
            fun k => (50, 50 * (i + 1 + k)) := by
          funext k
          have : i + (k + 1) = i + 1 + k := by omega
          rw [this]
        rw [hfun]
        simp
      have hout : ((List.range (N + 1)).map fun k =>
            (pageFor c blogname m 50 (50 * (i + k)) kw).map PostRecord.mk).flatten =
          (pageFor c blogname m 50 (50 * i) kw).map PostRecord.mk ++
            ((List.range N).map fun k =>
              (pageFor c blogname m 50 (50 * (i + 1 + k)) kw).map PostRecord.mk).flatten := by
        rw [range_succ_map_shift]
        have hfun : (fun k =>
              (pageFor c blogname m 50 (50 * (i + (k + 1))) kw).map PostRecord.mk) =
            fun k => (pageFor c blogname m 50 (50 * (i + 1 + k)) kw).map PostRecord.mk := by
          funext k
          have : i + (k + 1) = i + 1 + k := by omega
          rw [this]
        rw [hfun]
        simp
      rw [hreq, hout]

/-- C1: over any client, `get_posts` requests page `k` with `limit = 50`
and `offset = 50 * k` starting from offset `0`, yields every item of each
non-empty page in order wrapped as a record, advances the offset by
exactly 50 after each non-empty page regardless of the page's actual
size, and terminates the first time a page's post list is empty or absent
(`N` being the index of the first empty page). -/
theorem claim_C1 {J K : Type} (c : ApiClient J K) (blogname : String)
    (m : FetchMethod) (kw : K) (N : Nat)
    (hbefore : ∀ k, k < N → pageFor c blogname m 50 (50 * k) kw ≠ [])
    (hend : pageFor c blogname m 50 (50 * N) kw = []) :
    get_posts c blogname m kw (N + 1) =
      some ((List.range (N + 1)).map fun k => (50, 50 * k),
        ((List.range N).map fun k =>
          (pageFor c blogname m 50 (50 * k) kw).map PostRecord.mk).flatten) := by
  have h := get_posts_loop_spec c blogname m kw N 0
    (fun k _ hk2 => hbefore k (by omega))
    (by simpa using hend)
  simpa [get_posts] using h

/-- A mocked endpoint returning pages of sizes 50, 50, 12 and then 0,
regardless of which endpoint family is asked. -/
def mockPages (offset : Nat) : List Nat :=
  if offset = 0 then List.range 50
  else if offset = 50 then List.range 50
  else if offset = 100 then List.range 12
  else []

/-- A client over `mockPages` for each of the three endpoint families. -/
def mockClient : ApiClient Nat Unit :=
  { posts := fun _ _ offset _ => some (mockPages offset)
  , queue := fun _ _ offset _ => some (mockPages offset)
  , likes := fun offset _ _ => some (mockPages offset) }

/-- C1 witness: over pages of sizes `[50, 50, 12, 0]` the generator issues
requests at offsets 0, 50, 100, 150 with limit 50, yields exactly 112
records, and terminates. -/
theorem claim_C1_witness :
    (get_posts mockClient "someblog" FetchMethod.posts () 4).map
      (fun r => (r.1, r.2.length)) =
      some ([(50, 0), (50, 50), (50, 100), (50, 150)], 112) := by
  rw [claim_C1 mockClient "someblog" FetchMethod.posts () 3 (by decide) (by decide)]
  decide

end Pytumblr3
